import Mathlib

/-!
Verification of the digg-rss-worker Cloudflare Worker (src/src/index.js, with
the variant worker in src/unnamed/part_001) against its natural-language
specification.  JavaScript strings are embedded as `List Char`; the platform
APIs the worker calls (`fetch`, `caches.default`, `new URL`, `Date`
formatting) are abstracted as explicit parameters, while every function of
the repository itself is translated directly from the source.
-/

set_option maxRecDepth 10000

/-- JavaScript strings are modelled as lists of characters. -/
abbrev Chars := List Char

/-- Embed a Lean string literal as a character list. -/
def str (s : String) : Chars := s.data

/-- The whitespace class used by the worker's regexes (`\s`) and `trim`,
restricted to the ASCII whitespace characters that can actually appear in
the worker's inputs. -/
def isWs (c : Char) : Bool :=
  c == ' ' || c == '\t' || c == '\n' || c == '\r' || c == '\x0b' || c == '\x0c'

/-- `String(text).replace(/\s+/g, " ")` from `makeSnippet`: every maximal run
of whitespace becomes a single space. -/
def collapseWs : Chars → Chars
  | [] => []
  | c :: rest =>
    if isWs c then
      match rest with
      | d :: _ => if isWs d then collapseWs rest else ' ' :: collapseWs rest
      | [] => [' ']
    else c :: collapseWs rest

/-- Leading-whitespace removal, the first half of JavaScript `.trim()`. -/
def trimStart (s : Chars) : Chars := s.dropWhile isWs

/-- Trailing-whitespace removal, the second half of JavaScript `.trim()`. -/
def trimEnd (s : Chars) : Chars := (s.reverse.dropWhile isWs).reverse

/-- JavaScript `.trim()`. -/
def strTrim (s : Chars) : Chars := trimEnd (trimStart s)

/-- `.replace(/\s+/g, " ").trim()`, the cleaning step of `makeSnippet`. -/
def cleanWs (s : Chars) : Chars := strTrim (collapseWs s)

/-- `truncated.lastIndexOf(" ")` from `makeSnippet`: the index of the last
space, or `none` where JavaScript returns `-1`. -/
def lastSpaceIdx : Chars → Option Nat
  | [] => none
  | c :: rest =>
    match lastSpaceIdx rest with
    | some j => some (j + 1)
    | none => if c == ' ' then some 0 else none

/-- `makeSnippet(text, maxLen)` from src/src/index.js (the source's default
`maxLen = 220` is always passed explicitly here): collapse whitespace, trim,
and if the result is longer than `maxLen` cut at the last word boundary
(falling back to a hard cut when the last space is at position `≤ 40`,
which also covers JavaScript's `-1` for "no space"), appending an ellipsis. -/
def makeSnippet (text : Chars) (maxLen : Nat) : Chars :=
  if text = [] then []
  else
    let clean := cleanWs text
    if clean.length ≤ maxLen then clean
    else
      let truncated := clean.take maxLen
      match lastSpaceIdx truncated with
      | some cut => (if 40 < cut then truncated.take cut else truncated) ++ str "…"
      | none => truncated ++ str "…"

/-- Fuel-indexed core of `String.prototype.replaceAll` with a literal
pattern (leftmost-match, non-overlapping).  The fuel starts at the input
length and always dominates it, so the `(0, l)` arm is never reached on a
nonempty list. -/
def replaceAllAux (pat rep : Chars) : Nat → Chars → Chars
  | _, [] => []
  | 0, l => l
  | fuel + 1, c :: rest =>
    if pat.isPrefixOf (c :: rest) && !pat.isEmpty then
      rep ++ replaceAllAux pat rep fuel (List.drop (pat.length - 1) rest)
    else
      c :: replaceAllAux pat rep fuel rest

/-- `s.replaceAll(pat, rep)` / `s.replace(/pat/g, rep)` for a literal
pattern. -/
def replaceAllL (pat rep s : Chars) : Chars := replaceAllAux pat rep s.length s

/-- `escapeXml(s)` from src/src/index.js: escapes `&`, `<`, `>`, `"`
(in that order, `&` first). -/
def escapeXml (s : Chars) : Chars :=
  replaceAllL (str "\"") (str "&quot;")
    (replaceAllL (str ">") (str "&gt;")
      (replaceAllL (str "<") (str "&lt;")
        (replaceAllL (str "&") (str "&amp;") s)))

/-- `decodeHtmlEntities(s)` from src/src/index.js: the eight chained
`.replace` calls, applied in source order (`&amp;` first, `&#x3D;` last). -/
def decodeHtmlEntities (s : Chars) : Chars :=
  if s = [] then []
  else
    replaceAllL (str "&#x3D;") (str "=")
      (replaceAllL (str "&#x60;") (str "\x60")
        (replaceAllL (str "&#x2F;") (str "/")
          (replaceAllL (str "&gt;") (str ">")
            (replaceAllL (str "&lt;") (str "<")
              (replaceAllL (str "&#39;") (str "\x27")
                (replaceAllL (str "&quot;") (str "\x22")
                  (replaceAllL (str "&amp;") (str "&") s)))))))

/-- `cdataSafe(s)` from src/src/index.js, i.e.
`String(s || "").replaceAll("]]>", "]]&gt;")`, written as the explicit
leftmost scan that `replaceAll` performs. -/
def cdataSafe : Chars → Chars
  | ']' :: ']' :: '>' :: rest => str "]]&gt;" ++ cdataSafe rest
  | c :: rest => c :: cdataSafe rest
  | [] => []

/-- Decidable "contains the pattern as a contiguous substring" scan, used to
state the CDATA-safety claim computationally. -/
def containsPat (pat : Chars) : Chars → Bool
  | [] => pat.isEmpty
  | c :: rest => pat.isPrefixOf (c :: rest) || containsPat pat rest

/-- The result of the platform's `new URL(urlStr)` parse, restricted to the
fields `getYouTubeVideoId` reads: `hostname`, `pathname`, and
`searchParams.get("v")`. -/
structure URLParts where
  hostname : Chars
  pathname : Chars
  searchV : Option Chars

/-- `isValidYouTubeId(id)` from src/src/index.js: a defined string matching
`/^[a-zA-Z0-9_-]{10,16}$/` (the `Option` covers JavaScript's
`typeof id === "string"` guard against `undefined`/`null`). -/
def isValidYouTubeId : Option Chars → Bool
  | some s =>
    decide (10 ≤ s.length) && decide (s.length ≤ 16) &&
      s.all (fun c => c.isAlphanum || c == '_' || c == '-')
  | none => false

/-- Split a string at a character (the pieces between occurrences),
modelling JavaScript `String.prototype.split`. -/
def splitOnChar (c : Char) : Chars → List Chars
  | [] => [[]]
  | a :: rest =>
    let r := splitOnChar c rest
    if a == c then [] :: r
    else
      match r with
      | h :: t => (a :: h) :: t
      | [] => [[a]]

/-- `pathname.split("/").filter(Boolean)` from `getYouTubeVideoId`. -/
def splitSlash (s : Chars) : List Chars :=
  (splitOnChar '/' s).filter (fun x => !x.isEmpty)

/-- `hostname.replace(/^www\./, "")` from `getYouTubeVideoId`. -/
def stripWww (h : Chars) : Chars :=
  if (str "www.").isPrefixOf h then h.drop 4 else h

/-- `getYouTubeVideoId(urlStr)` from src/src/index.js; `parseURL` stands for
the platform's `new URL` constructor (`none` models the caught parse
exception). -/
def getYouTubeVideoId (parseURL : Chars → Option URLParts) (urlStr : Chars) :
    Option Chars :=
  if urlStr = [] then none
  else
    match parseURL urlStr with
    | none => none
    | some u =>
      let host := (stripWww u.hostname).map Char.toLower
      if host = str "youtu.be" then
        let id := (splitSlash u.pathname).head?
        if isValidYouTubeId id then id else none
      else if (str "youtube.com").isSuffixOf host then
        if isValidYouTubeId u.searchV then u.searchV
        else
          match splitSlash u.pathname with
          | kind :: vid :: _ =>
            if (kind == str "shorts" || kind == str "embed" || kind == str "live")
                && isValidYouTubeId (some vid) then
              some vid
            else none
          | _ => none
      else none

/-- `youtubeThumbUrl(videoId)` from src/src/index.js. -/
def youtubeThumbUrl (videoId : Chars) : Chars :=
  str "https://i.ytimg.com/vi/" ++ videoId ++ str "/hqdefault.jpg"

/-- One `<meta ...>` tag of a fetched Digg post page, the only part of the
page HTML that `extractMetaContent` can observe. -/
structure MetaTag where
  isProp : Bool
  key : Chars
  content : Chars

/-- `extractMetaContent(html, key, isProperty)` from src/src/index.js: the
regex lookup for the first `<meta property=.../name=... content=...>` tag
with the given key, entity-decoded; a miss yields the empty string.  The
page markup is embedded as its list of meta tags. -/
def extractMetaContent (html : List MetaTag) (key : Chars) (isProp : Bool) :
    Chars :=
  match html.find? (fun t => t.isProp == isProp && t.key == key) with
  | some t => decodeHtmlEntities t.content
  | none => []

/-- Outcome of the secondary `fetch(diggLink)` inside `fetchDiggTldr`:
either the caught transport exception, or a response with its `ok` flag and
(meta tags of) its HTML body. -/
inductive FetchOutcome where
  | fail : FetchOutcome
  | resp : Bool → List MetaTag → FetchOutcome

/-- `fetchDiggTldr(diggLink, tldrMax, ctx)` from src/src/index.js, with the
platform I/O made explicit: `cached` is the text of a per-post cache hit
(`caches.default.match`), `outcome` the result of the page fetch.  The
`ctx.waitUntil(cache.put ...)` write is fire-and-forget and does not affect
the returned value, so it has no counterpart here. -/
def fetchDiggTldr (cached : Option Chars) (outcome : FetchOutcome)
    (tldrMax : Nat) : Chars :=
  match cached with
  | some txt => txt
  | none =>
    match outcome with
    | .fail => []
    | .resp ok html =>
      if !ok then []
      else
        let og := extractMetaContent html (str "og:description") true
        let meta := extractMetaContent html (str "description") false
        let raw := strTrim (if og = [] then meta else og)
        if raw = [] then [] else makeSnippet raw tldrMax

/-- An RSS enclosure (thumbnail URL and MIME type). -/
structure Enclosure where
  url : Chars
  type : Chars

/-- A feed item as assembled by the worker.  The main worker's items carry
no `creator`; the variant worker (src/unnamed/part_001) sets it from
`node.account?.username || null`. -/
structure FeedItem where
  title : Chars
  link : Chars
  guid : Chars
  pubDate : Chars
  description : Chars
  enclosure : Option Enclosure
  creator : Option Chars

/-- `items.map(...).join("\n")` — JavaScript `Array.prototype.join`. -/
def joinSep (sep : Chars) : List Chars → Chars
  | [] => []
  | [x] => x
  | x :: rest => x ++ sep ++ joinSep sep rest

/-- The enclosure XML fragment of `buildRss` in src/src/index.js. -/
def enclosureXmlOf (it : FeedItem) : Chars :=
  match it.enclosure with
  | some e =>
    str "\n    <enclosure url=\"" ++ escapeXml e.url ++ str "\" type=\"" ++
      escapeXml e.type ++ str "\" length=\"0\" />"
  | none => []

/-- The per-item template of `buildRss` in src/src/index.js (the template
literal begins with a newline and two spaces and is `.trim()`ed).  `toUTC`
stands for the platform's `new Date(x).toUTCString()`. -/
def itemXml (toUTC : Chars → Chars) (it : FeedItem) : Chars :=
  strTrim
    (str "\n  <item>\n    <title><![CDATA[" ++ cdataSafe it.title ++
      str "]]></title>\n    <link>" ++ escapeXml it.link ++
      str "</link>\n    <guid isPermaLink=\"true\">" ++ escapeXml it.guid ++
      str "</guid>\n    <pubDate>" ++ toUTC it.pubDate ++
      str "</pubDate>\n    <description><![CDATA[" ++ cdataSafe it.description ++
      str "]]></description>" ++ enclosureXmlOf it ++ str "\n  </item>")

/-- `buildRss({title, link, description, items})` from src/src/index.js.
`now` stands for `new Date().toUTCString()` at render time. -/
def buildRss (toUTC : Chars → Chars) (now : Chars) (title link description : Chars)
    (items : List FeedItem) : Chars :=
  str "<?xml version=\"1.0\" encoding=\"UTF-8\"?>\n<rss version=\"2.0\">\n<channel>\n  <title><![CDATA[" ++
    cdataSafe title ++ str "]]></title>\n  <link>" ++ escapeXml link ++
    str "</link>\n  <description><![CDATA[" ++ cdataSafe description ++
    str "]]></description>\n  <ttl>10</ttl>\n  <lastBuildDate>" ++ now ++
    str "</lastBuildDate>\n" ++ joinSep (str "\n") (items.map (itemXml toUTC)) ++
    str "\n</channel>\n</rss>"

/-- `safeJson(obj, maxLen)` from src/unnamed/part_001, applied to the
already-serialized JSON text (`JSON.stringify(obj)`; the `catch` fallback
`String(obj)` likewise produces a string): truncate to `maxLen` characters
and append an ellipsis when longer. -/
def safeJson (s : Chars) (maxLen : Nat) : Chars :=
  if maxLen < s.length then s.take maxLen ++ str "…" else s

namespace Alt

/-- The `<dc:creator>` fragment of `buildRss` in src/unnamed/part_001
(`it.creator ? ... : ""`, with JavaScript truthiness: `null` and the empty
string are both falsy). -/
def creatorXmlOf (it : FeedItem) : Chars :=
  match it.creator with
  | some c =>
    if c = [] then []
    else str "\n    <dc:creator><![CDATA[" ++ c ++ str "]]></dc:creator>"
  | none => []

/-- The per-item template of `buildRss` in src/unnamed/part_001 (note: this
variant interpolates `it.title` / `it.description` into the CDATA sections
without `cdataSafe`). -/
def itemXml (toUTC : Chars → Chars) (it : FeedItem) : Chars :=
  strTrim
    (str "\n  <item>\n    <title><![CDATA[" ++ it.title ++
      str "]]></title>\n    <link>" ++ escapeXml it.link ++
      str "</link>\n    <guid isPermaLink=\"true\">" ++ escapeXml it.guid ++
      str "</guid>\n    <pubDate>" ++ toUTC it.pubDate ++
      str "</pubDate>\n    <description><![CDATA[" ++ it.description ++
      str "]]></description>" ++ creatorXmlOf it ++ enclosureXmlOf it ++
      str "\n  </item>")

/-- `buildRss` from src/unnamed/part_001: same channel template as the main
worker, but with the `dc` namespace declared on `<rss>` and per-item
`<dc:creator>` support. -/
def buildRss (toUTC : Chars → Chars) (now : Chars) (title link description : Chars)
    (items : List FeedItem) : Chars :=
  str "<?xml version=\"1.0\" encoding=\"UTF-8\"?>\n<rss version=\"2.0\" xmlns:dc=\"http://purl.org/dc/elements/1.1/\">\n<channel>\n  <title><![CDATA[" ++
    title ++ str "]]></title>\n  <link>" ++ escapeXml link ++
    str "</link>\n  <description><![CDATA[" ++ description ++
    str "]]></description>\n  <ttl>10</ttl>\n  <lastBuildDate>" ++ now ++
    str "</lastBuildDate>\n" ++ joinSep (str "\n") (items.map (itemXml toUTC)) ++
    str "\n</channel>\n</rss>"

end Alt

/-- Result of one `(window, variant)` GraphQL attempt, as the retry loop in
src/src/index.js observes it.  `good records` models
`resp.ok && json?.data?.posts?.edges && !json?.errors` holding, with
`records` the `edges` array; `bad payload` models the other case, with
`payload` the serialized form of `json?.errors || json || {status: ...}`. -/
inductive UpResult (α : Type) where
  | good : List α → UpResult α
  | bad : Chars → UpResult α

/-- The best-so-far update of the retry loop:
`if (!edges || candidate.length > edges.length) edges = candidate`. -/
def bestOf {α : Type} (edges : Option (List α)) (cand : List α) :
    Option (List α) :=
  match edges with
  | none => some cand
  | some old => if old.length < cand.length then some cand else some old

/-- The inner `for (const where of whereVariants)` loop of src/src/index.js,
folded over the attempt results of one window.  Returns the `edges` and
`lastErr` state after the loop, the number of requests issued, and whether
the loop exited via `break` (i.e. accepted an attempt as final success). -/
def runVariants {α : Type} (limit : Nat) :
    Option (List α) → Option Chars → List (UpResult α) →
      Option (List α) × Option Chars × Nat × Bool
  | edges, lastErr, [] => (edges, lastErr, 0, false)
  | edges, lastErr, .good cand :: rest =>
    if min limit 5 ≤ cand.length then (some cand, lastErr, 1, true)
    else
      let r := runVariants limit (bestOf edges cand) lastErr rest
      (r.1, r.2.1, r.2.2.1 + 1, r.2.2.2)
  | edges, lastErr, .bad p :: rest =>
    let r := runVariants limit edges (some p) rest
    (r.1, r.2.1, r.2.2.1 + 1, r.2.2.2)

/-- The outer `for (const windowMs of windowsMs)` loop of src/src/index.js:
after each window, `if (edges && edges.length >= Math.min(limit, 5)) break`.
Returns the final `edges`, `lastErr` and the total number of requests. -/
def runWindows {α : Type} (limit : Nat) :
    Option (List α) → Option Chars → List (List (UpResult α)) →
      Option (List α) × Option Chars × Nat
  | edges, lastErr, [] => (edges, lastErr, 0)
  | edges, lastErr, w :: ws =>
    let r := runVariants limit edges lastErr w
    if (match r.1 with
        | some es => decide (min limit 5 ≤ es.length)
        | none => false) then
      (r.1, r.2.1, r.2.2.1)
    else
      let r2 := runWindows limit r.1 r.2.1 ws
      (r2.1, r2.2.1, r.2.2.1 + r2.2.2)

/-- `community { name slug }` of a post node. -/
structure Community where
  name : Chars
  slug : Chars

/-- A post record (`node`) as requested by the main worker's GraphQL query:
`_id title slug createdDate externalContent { url } community { name slug }`.
`externalContent` is the optional external URL (`node.externalContent?.url`);
the query requests no preview/summary text field. -/
structure PostNode where
  id : Chars
  title : Chars
  slug : Chars
  createdDate : Chars
  externalContent : Option Chars
  community : Option Community

/-- `node.community?.slug || "digg"` (JavaScript truthiness: a missing
community and an empty slug both fall back to `"digg"`). -/
def commOf (n : PostNode) : Chars :=
  match n.community with
  | some c => if c.slug = [] then str "digg" else c.slug
  | none => str "digg"

/-- `rawId.startsWith(comm + "-") ? rawId.slice((comm + "-").length) : rawId`
from src/src/index.js (`rawId` is `String(node._id || "")`). -/
def shortIdOf (n : PostNode) : Chars :=
  if (commOf n ++ str "-").isPrefixOf n.id then
    n.id.drop (commOf n ++ str "-").length
  else n.id

/-- The canonical Digg post URL built in src/src/index.js:
`https://digg.com/${comm}/${shortId}/${node.slug}`. -/
def diggLinkOf (n : PostNode) : Chars :=
  str "https://digg.com/" ++ commOf n ++ str "/" ++ shortIdOf n ++ str "/" ++
    n.slug

/-- The `edges.map(({node}) => ...)` body of src/src/index.js that turns a
post node into a feed item.  `tldr` is the awaited `fetchDiggTldr` result
for this post and `parseURL` the platform URL parser used by
`getYouTubeVideoId`. -/
def mkItem (parseURL : Chars → Option URLParts) (tldr : Chars) (tldrMax : Nat)
    (n : PostNode) : FeedItem :=
  let diggLink := diggLinkOf n
  let externalUrl := n.externalContent.getD []
  let link := if externalUrl = [] then diggLink else externalUrl
  let baseText := if tldr = [] then n.title else tldr
  let baseSnippet := makeSnippet baseText tldrMax
  let description :=
    if externalUrl = [] then escapeXml baseSnippet
    else
      escapeXml baseSnippet ++ str "<br/><br/><a href=\"" ++
        escapeXml diggLink ++ str "\">Discuss on Digg</a>"
  let ytId := getYouTubeVideoId parseURL
    (if externalUrl = [] then diggLink else externalUrl)
  let enclosure :=
    match ytId with
    | some v => some ⟨youtubeThumbUrl v, str "image/jpeg"⟩
    | none => none
  { title := if n.title = [] then str "(untitled)" else n.title
    link := link
    guid := diggLink
    pubDate := n.createdDate
    description := description
    enclosure := enclosure
    creator := none }

/-- The 502 body of src/src/index.js:
`"Upstream error: " + JSON.stringify(lastErr || {})`, where the stored
`lastErr` payload is embedded as its serialized JSON text. -/
def upstreamErrorBody (lastErr : Option Chars) : Chars :=
  str "Upstream error: " ++ lastErr.getD (str "\x7b\x7d")

/-- The tail of the main worker's `fetch` handler after the retry loop: the
`if (!edges)` 502 branch, else item assembly and `buildRss`.  Returns the
response as (status, body).  `tldrOf` gives each post's awaited
`fetchDiggTldr` result. -/
def handlerRespond (parseURL : Chars → Option URLParts)
    (tldrOf : PostNode → Chars) (tldrMax : Nat) (toUTC : Chars → Chars)
    (now : Chars) (feedTitle feedLink : Chars)
    (edges : Option (List PostNode)) (lastErr : Option Chars) : Nat × Chars :=
  match edges with
  | none => (502, upstreamErrorBody lastErr)
  | some es =>
    (200,
      buildRss toUTC now feedTitle feedLink feedTitle
        (es.map (fun n => mkItem parseURL (tldrOf n) tldrMax n)))

/-- Comparison definition for the description-source claim, following the
spec's words (§4.3): "(a) a per-post TL;DR ..., (b) an upstream-provided
text preview/summary field if present, (c) the post title."  The code's
post records carry no preview field, so the hypothetical preview is an
extra argument here. -/
def specDescriptionSource (tldr : Chars) (preview : Option Chars)
    (title : Chars) : Chars :=
  if tldr ≠ [] then tldr
  else
    match preview with
    | some p => p
    | none => title

/-! ## Helper lemmas -/

theorem makeSnippet_length_le (text : Chars) (maxLen : Nat) :
    (makeSnippet text maxLen).length ≤ maxLen + 1 := by
  rw [makeSnippet]
  split
  · simp
  · dsimp only
    split
    next h => omega
    next h =>
      have hell : (str "…").length = 1 := rfl
      split
      next cut heq =>
        split
        · rw [List.length_append, hell, List.length_take, List.length_take]
          omega
        · rw [List.length_append, hell, List.length_take]
          omega
      next heq =>
        rw [List.length_append, hell, List.length_take]
        omega

theorem containsPat_iff (pat l : Chars) : containsPat pat l = true ↔ pat <:+: l := by
  induction l with
  | nil =>
    simp [containsPat, List.isEmpty_iff]
  | cons c rest ih =>
    simp [containsPat, ih, List.infix_cons_iff]

theorem cdataSafe_head? (m : Chars) : (cdataSafe m).head? = m.head? := by
  rw [cdataSafe.eq_def]
  split <;> rfl

theorem cdataSafe_no_gt_head (m : Chars) (hm : m.head? ≠ some '>') :
    List.isPrefixOf ['>'] (cdataSafe m) = false := by
  rw [cdataSafe.eq_def]
  split
  · rfl
  · next c rest h =>
    have hc : ¬ ('>' == c) = true := by
      simp only [List.head?] at hm
      simp only [beq_iff_eq]
      intro hcc
      exact hm (by rw [hcc])
    simp [List.isPrefixOf, Bool.and_eq_true, hc]
  · rfl
theorem cdataSafe_no_bracketGt (m : Chars)
    (hm : ∀ r : Chars, m ≠ ']' :: '>' :: r) :
    List.isPrefixOf [']', '>'] (cdataSafe m) = false := by
  rw [cdataSafe.eq_def]
  split
  · rfl
  · next c rest h =>
    by_cases hc : c = ']'
    · subst hc
      have hrest : rest.head? ≠ some '>' := by
        intro hr
        cases rest with
        | nil => simp at hr
        | cons d r2 =>
          simp only [List.head?, Option.some.injEq] at hr
          exact hm r2 (by rw [hr])
      have := cdataSafe_no_gt_head rest hrest
      simp [List.isPrefixOf, this]
    · have : ¬ ((']' : Char) == c) = true := by
        simp only [beq_iff_eq]
        exact fun hcc => hc hcc.symm
      simp [List.isPrefixOf, this]
  · rfl

theorem cdataSafe_containsPat (l : Chars) :
    containsPat (str "]]>") (cdataSafe l) = false := by
  have step : ∀ (c : Char) (X : Chars),
      containsPat (str "]]>") (c :: X) =
        ((str "]]>").isPrefixOf (c :: X) || containsPat (str "]]>") X) :=
    fun c X => rfl
  have main : ∀ n : Nat, ∀ l : Chars, l.length ≤ n →
      containsPat (str "]]>") (cdataSafe l) = false := by
    intro n
    induction n with
    | zero =>
      intro l hl
      have : l = [] := List.eq_nil_of_length_eq_zero (Nat.le_zero.mp hl)
      subst this
      rfl
    | succ n ih =>
      intro l hl
      rw [cdataSafe.eq_def]
      split
      · next rest =>
        have hr : containsPat (str "]]>") (cdataSafe rest) = false := by
          apply ih
          simp only [List.length_cons] at hl
          omega
        have p1 : (str "]]>").isPrefixOf
            (']' :: ']' :: '&' :: 'g' :: 't' :: ';' :: cdataSafe rest) = false := rfl
        have p2 : (str "]]>").isPrefixOf
            (']' :: '&' :: 'g' :: 't' :: ';' :: cdataSafe rest) = false := rfl
        have p3 : (str "]]>").isPrefixOf
            ('&' :: 'g' :: 't' :: ';' :: cdataSafe rest) = false := rfl
        have p4 : (str "]]>").isPrefixOf ('g' :: 't' :: ';' :: cdataSafe rest) = false := rfl
        have p5 : (str "]]>").isPrefixOf ('t' :: ';' :: cdataSafe rest) = false := rfl
        have p6 : (str "]]>").isPrefixOf (';' :: cdataSafe rest) = false := rfl
        show containsPat (str "]]>")
          (']' :: ']' :: '&' :: 'g' :: 't' :: ';' :: cdataSafe rest) = false
        rw [step, p1, step, p2, step, p3, step, p4, step, p5, step, p6, hr]
        rfl
      · next c rest h =>
        have hr : containsPat (str "]]>") (cdataSafe rest) = false := by
          apply ih
          simp only [List.length_cons] at hl
          omega
        rw [step, hr]
        have hpfx : (str "]]>").isPrefixOf (c :: cdataSafe rest) = false := by
          by_cases hc : c = ']'
          · subst hc
            have hm : ∀ r : Chars, rest ≠ ']' :: '>' :: r := by
              intro r hrr
              exact h r rfl hrr
            have := cdataSafe_no_bracketGt rest hm
            simp [List.isPrefixOf, this]
          · have : ¬ ((']' : Char) == c) = true := by
              simp only [beq_iff_eq]
              exact fun hcc => hc hcc.symm
            simp [List.isPrefixOf, this]
        rw [hpfx]
        rfl
      · rfl
  exact main l.length l (Nat.le_refl _)

theorem infix_ext_left (p a : Chars) {m : Chars} (h : p <:+: m) : p <:+: a ++ m := by
  obtain ⟨s, t, rfl⟩ := h
  exact ⟨a ++ s, t, by simp⟩

theorem infix_ext_right (p b : Chars) {m : Chars} (h : p <:+: m) : p <:+: m ++ b := by
  obtain ⟨s, t, rfl⟩ := h
  exact ⟨s, t ++ b, by simp⟩

theorem infix_joinSep (sep : Chars) {x : Chars} :
    ∀ {xs : List Chars}, x ∈ xs → x <:+: joinSep sep xs := by
  intro xs h
  induction xs with
  | nil => simp at h
  | cons y ys ih =>
    rcases List.mem_cons.mp h with rfl | hmem
    · cases ys with
      | nil => exact List.infix_refl x
      | cons z zs =>
        have : joinSep sep (x :: z :: zs) = (x ++ sep) ++ joinSep sep (z :: zs) := by
          show x ++ sep ++ joinSep sep (z :: zs) = _
          rfl
        rw [this]
        exact ⟨[], sep ++ joinSep sep (z :: zs), by simp [List.append_assoc]⟩
    · cases ys with
      | nil => simp at hmem
      | cons z zs =>
        have heq : joinSep sep (y :: z :: zs) = (y ++ sep) ++ joinSep sep (z :: zs) := by
          show y ++ sep ++ joinSep sep (z :: zs) = _
          rfl
        rw [heq]
        exact infix_ext_left x (y ++ sep) (ih hmem)

theorem infix_trimStart {c : Char} {p l : Chars} (hc : isWs c = false)
    (h : (c :: p) <:+: l) : (c :: p) <:+: trimStart l := by
  induction l with
  | nil => simp at h
  | cons a l' ih =>
    show (c :: p) <:+: (a :: l').dropWhile isWs
    rw [List.dropWhile_cons]
    by_cases ha : isWs a = true
    · rw [if_pos ha]
      rcases List.infix_cons_iff.mp h with hpre | hinf
      · exfalso
        have : c = a := (List.cons_prefix_cons.mp hpre).1
        rw [this, ha] at hc
        exact Bool.noConfusion hc
      · exact ih hinf
    · rw [if_neg ha]
      exact h

theorem infix_trimEnd {d : Char} {p l : Chars} (hd : isWs d = false)
    (h : (p ++ [d]) <:+: l) : (p ++ [d]) <:+: trimEnd l := by
  have h1 : (d :: p.reverse) <:+: l.reverse := by
    have := List.reverse_infix.mpr h
    simpa using this
  have h2 := infix_trimStart hd h1
  have h3 := List.reverse_infix.mpr h2
  simpa [trimEnd, trimStart] using h3

theorem infix_strTrim {c d : Char} {mid l : Chars} (hc : isWs c = false)
    (hd : isWs d = false) (h : (c :: (mid ++ [d])) <:+: l) :
    (c :: (mid ++ [d])) <:+: strTrim l := by
  have h1 := infix_trimStart hc h
  have h2 : ((c :: mid) ++ [d]) <:+: trimStart l := by simpa using h1
  have h3 := infix_trimEnd hd h2
  simpa [strTrim] using h3

theorem runVariants_allEmpty {α : Type} (limit : Nat) (hl : 1 ≤ limit)
    (w : List (UpResult α)) (hw : ∀ r ∈ w, r = UpResult.good [])
    (e : Option (List α)) (he : e = none ∨ e = some []) (l : Option Chars) :
    runVariants limit e l w =
      ((if w.isEmpty then e else some []), l, w.length, false) := by
  induction w generalizing e with
  | nil => simp [runVariants]
  | cons r rest ih =>
    have hr : r = UpResult.good [] := hw r (by simp)
    subst hr
    have hmin : ¬ (min limit 5 ≤ (([] : List α)).length) := by
      simp only [List.length_nil, Nat.le_zero]
      omega
    have hbest : bestOf e ([] : List α) = some [] := by
      rcases he with rfl | rfl <;> simp [bestOf]
    rw [runVariants, if_neg hmin, hbest,
      ih (fun r hr => hw r (List.mem_cons_of_mem _ hr)) (some []) (Or.inr rfl)]
    cases rest <;> simp

theorem runWindows_allEmpty {α : Type} (limit : Nat) (hl : 1 ≤ limit)
    (grid : List (List (UpResult α)))
    (hg : ∀ w ∈ grid, ∀ r ∈ w, r = UpResult.good [])
    (e : Option (List α)) (he : e = none ∨ e = some []) (l : Option Chars) :
    runWindows limit e l grid =
      ((if grid.all (fun v => v.isEmpty) then e else some []), l,
        (grid.map List.length).sum) := by
  induction grid generalizing e with
  | nil => simp [runWindows]
  | cons w ws ih =>
    rw [runWindows,
      runVariants_allEmpty limit hl w (hg w (by simp)) e he l]
    have he1 : (if w.isEmpty then e else some ([] : List α)) = none ∨
        (if w.isEmpty then e else some []) = some [] := by
      cases hw0 : w.isEmpty
      · simp
      · simpa using he
    have hcheck : (match (if w.isEmpty then e else some ([] : List α)) with
        | some es => decide (min limit 5 ≤ es.length)
        | none => false) = false := by
      rcases he1 with h | h <;> rw [h]
      simp only [List.length_nil, decide_eq_false_iff_not, Nat.le_zero]
      omega
    rw [hcheck]
    simp only [Bool.false_eq_true, if_false]
    rw [ih (fun v hv => hg v (List.mem_cons_of_mem _ hv)) _ he1]
    simp only [List.all_cons, List.map_cons, List.sum_cons]
    by_cases hw0 : w.isEmpty = true
    · have hb : (w.isEmpty && ws.all fun v => v.isEmpty) = (ws.all fun v => v.isEmpty) := by
        rw [hw0, Bool.true_and]
      rw [if_pos hw0]
      simp only [hb]
    · simp [hw0]

/-! ## Claim theorems -/

/-- Claim C1: for every upstream post record, the produced feed item's
`guid` equals the canonical post URL
`https://digg.com/<community-slug>/<prefix-stripped-id>/<slug>`, and even
when the record carries a non-empty external URL (so that `link` is set to
that external URL instead), the `guid` is unchanged. -/
theorem guid_is_canonical (parseURL : Chars → Option URLParts) (tldr : Chars)
    (tldrMax : Nat) (n : PostNode) :
    (mkItem parseURL tldr tldrMax n).guid =
      str "https://digg.com/" ++ commOf n ++ str "/" ++ shortIdOf n ++ str "/" ++
        n.slug ∧
    (∀ u, n.externalContent = some u → u ≠ [] →
      (mkItem parseURL tldr tldrMax n).link = u) := by
  constructor
  · rfl
  · intro u hu hne
    show (if (n.externalContent.getD [] : Chars) = [] then diggLinkOf n
          else n.externalContent.getD []) = u
    rw [hu]
    exact if_neg hne

/-- Witness for C1: a concrete post record with a non-empty external URL
gets that URL as its `link` while its `guid` stays the canonical URL. -/
theorem guid_is_canonical_witness :
    (mkItem (fun _ => none) [] 220
      ⟨str "science-abc", str "T", str "t-slug", str "2024-01-01",
        some (str "https://example.com/x"),
        some ⟨str "Science", str "science"⟩⟩).link =
      str "https://example.com/x" :=
  (guid_is_canonical (fun _ => none) [] 220
    ⟨str "science-abc", str "T", str "t-slug", str "2024-01-01",
      some (str "https://example.com/x"),
      some ⟨str "Science", str "science"⟩⟩).2
    (str "https://example.com/x") rfl (by decide)

/-- Claim C6: for every input string containing the literal sequence `]]>`,
the output of the CDATA sanitizer contains no occurrence of `]]>` — none
survive, none are re-formed by the replacement or by adjacent occurrences. -/
theorem cdataSafe_removes_terminator (l : Chars) (h : str "]]>" <:+: l) :
    ¬ (str "]]>" <:+: cdataSafe l) := by
  intro hbad
  have hb := (containsPat_iff (str "]]>") (cdataSafe l)).mpr hbad
  rw [cdataSafe_containsPat] at hb
  exact Bool.noConfusion hb

/-- Witness for C6 on the concrete input `a]]>]]>b` (adjacent
occurrences). -/
theorem cdataSafe_removes_terminator_witness :
    ¬ (str "]]>" <:+: cdataSafe (str "a]]>]]>b")) :=
  cdataSafe_removes_terminator (str "a]]>]]>b") (by decide)

/-- Claim C7: `makeSnippet` never returns more than `maxLen + 1` characters
(the extra one being the ellipsis), and on text that is already
whitespace-collapsed, trimmed and within the budget it is the identity. -/
theorem makeSnippet_bound_and_idempotent :
    (∀ (text : Chars) (maxLen : Nat),
      (makeSnippet text maxLen).length ≤ maxLen + 1) ∧
    (∀ (text : Chars) (maxLen : Nat), cleanWs text = text →
      text.length ≤ maxLen → makeSnippet text maxLen = text) := by
  refine ⟨makeSnippet_length_le, fun text maxLen hclean hlen => ?_⟩
  rw [makeSnippet]
  by_cases h0 : text = []
  · rw [if_pos h0, h0]
  · rw [if_neg h0]
    dsimp only
    rw [hclean, if_pos hlen]

/-- Witness for C7: the already-clean string `hello world` within budget is
returned unchanged. -/
theorem makeSnippet_bound_and_idempotent_witness :
    makeSnippet (str "hello world") 20 = str "hello world" :=
  makeSnippet_bound_and_idempotent.2 (str "hello world") 20 (by decide) (by decide)

/-- Counterexample for C8: `decodeHtmlEntities` leaves `&apos;`, `&nbsp;`,
the numeric reference `&#65;` and the hex reference `&#x41;` untouched, so
it does not decode the full set the claim lists. -/
theorem decodeHtmlEntities_missing_cex :
    decodeHtmlEntities (str "&apos;") = str "&apos;" ∧
    decodeHtmlEntities (str "&apos;") ≠ str "\x27" ∧
    decodeHtmlEntities (str "&nbsp;") = str "&nbsp;" ∧
    decodeHtmlEntities (str "&#65;") = str "&#65;" ∧
    decodeHtmlEntities (str "&#65;") ≠ str "A" ∧
    decodeHtmlEntities (str "&#x41;") = str "&#x41;" := by
  refine ⟨by decide, by decide, by decide, by decide, by decide, by decide⟩

/-- Claim C8 (amended): `decodeHtmlEntities` decodes exactly the eight
literal replacements of the source — `&amp;`, `&quot;`, `&#39;`, `&lt;`,
`&gt;`, `&#x2F;`, `&#x60;`, `&#x3D;` — and no other entity or general
numeric/hex character reference. -/
theorem decodeHtmlEntities_exact :
    decodeHtmlEntities (str "&amp;") = str "&" ∧
    decodeHtmlEntities (str "&quot;") = str "\x22" ∧
    decodeHtmlEntities (str "&#39;") = str "\x27" ∧
    decodeHtmlEntities (str "&lt;") = str "<" ∧
    decodeHtmlEntities (str "&gt;") = str ">" ∧
    decodeHtmlEntities (str "&#x2F;") = str "/" ∧
    decodeHtmlEntities (str "&#x60;") = str "\x60" ∧
    decodeHtmlEntities (str "&#x3D;") = str "=" := by
  refine ⟨by decide, by decide, by decide, by decide, by decide, by decide,
    by decide, by decide⟩

/-- Claim C5: the TL;DR enrichment returns either already-truncated plain
text (a `makeSnippet` result, hence within `tldrMax + 1` characters) or the
empty string, and each failure mode — failed fetch, non-success HTTP
status, meta-tag parse miss — yields the empty string instead of an error.
Totality of the embedded function models "never throws": every case of the
source's try/catch and early returns produces a value. -/
theorem fetchDiggTldr_safe (outcome : FetchOutcome) (tldrMax : Nat) :
    (fetchDiggTldr none outcome tldrMax = [] ∨
      ∃ raw, fetchDiggTldr none outcome tldrMax = makeSnippet raw tldrMax) ∧
    (fetchDiggTldr none outcome tldrMax).length ≤ tldrMax + 1 ∧
    (outcome = .fail → fetchDiggTldr none outcome tldrMax = []) ∧
    (∀ html, outcome = .resp false html → fetchDiggTldr none outcome tldrMax = []) ∧
    (∀ ok html, outcome = .resp ok html →
      extractMetaContent html (str "og:description") true = [] →
      extractMetaContent html (str "description") false = [] →
      fetchDiggTldr none outcome tldrMax = []) := by
  have hmaster : fetchDiggTldr none outcome tldrMax = [] ∨
      ∃ raw, fetchDiggTldr none outcome tldrMax = makeSnippet raw tldrMax := by
    cases outcome with
    | fail => exact Or.inl rfl
    | resp ok html =>
      cases ok with
      | false => exact Or.inl rfl
      | true =>
        have heq : fetchDiggTldr none (.resp true html) tldrMax =
            (if strTrim (if extractMetaContent html (str "og:description") true = []
                then extractMetaContent html (str "description") false
                else extractMetaContent html (str "og:description") true) = []
             then ([] : Chars)
             else makeSnippet
               (strTrim (if extractMetaContent html (str "og:description") true = []
                 then extractMetaContent html (str "description") false
                 else extractMetaContent html (str "og:description") true))
               tldrMax) := rfl
        rw [heq]
        by_cases hraw : strTrim (if extractMetaContent html (str "og:description") true = []
            then extractMetaContent html (str "description") false
            else extractMetaContent html (str "og:description") true) = []
        · rw [if_pos hraw]
          exact Or.inl rfl
        · rw [if_neg hraw]
          exact Or.inr ⟨_, rfl⟩
  refine ⟨hmaster, ?_, ?_, ?_, ?_⟩
  · rcases hmaster with h | ⟨raw, h⟩
    · rw [h]
      simp
    · rw [h]
      exact makeSnippet_length_le raw tldrMax
  · intro h
    subst h
    rfl
  · intro html h
    subst h
    rfl
  · intro ok html h hog hmeta
    subst h
    cases ok with
    | false => rfl
    | true =>
      have heq : fetchDiggTldr none (.resp true html) tldrMax =
          (if strTrim (if extractMetaContent html (str "og:description") true = []
              then extractMetaContent html (str "description") false
              else extractMetaContent html (str "og:description") true) = []
           then ([] : Chars)
           else makeSnippet
             (strTrim (if extractMetaContent html (str "og:description") true = []
               then extractMetaContent html (str "description") false
               else extractMetaContent html (str "og:description") true))
             tldrMax) := rfl
      rw [heq, if_pos hog, hmeta]
      rfl

/-- Witness for C5: a failed fetch yields the empty string. -/
theorem fetchDiggTldr_safe_witness :
    fetchDiggTldr none FetchOutcome.fail 220 = [] :=
  (fetchDiggTldr_safe FetchOutcome.fail 220).2.2.1 rfl

/-- Counterexample for C4: the claimed middle priority — an
upstream-provided preview/summary field — does not exist in the code: the
GraphQL query requests no such field and `mkItem` falls back from an empty
TL;DR directly to the post title.  Following the spec's words, a post with
an empty TL;DR, a (hypothetical) preview `upstream preview` and title
`The Title` should use the preview; the code uses the title. -/
theorem description_ignores_preview_cex :
    specDescriptionSource [] (some (str "upstream preview")) (str "The Title") =
      str "upstream preview" ∧
    (mkItem (fun _ => none) [] 220
      ⟨str "science-abc", str "The Title", str "t-slug", str "2024-01-01",
        none, some ⟨str "Science", str "science"⟩⟩).description =
      escapeXml (makeSnippet (str "The Title") 220) ∧
    escapeXml (makeSnippet (str "The Title") 220) ≠ str "upstream preview" := by
  refine ⟨by decide, by decide, by decide⟩

/-- Claim C4 (amended): the description's text source is the per-post
TL;DR when it is non-empty, else the post title; there is no intermediate
upstream preview/summary source. -/
theorem description_source_amended (parseURL : Chars → Option URLParts)
    (tldr : Chars) (tldrMax : Nat) (n : PostNode) :
    (tldr ≠ [] → (mkItem parseURL tldr tldrMax n).description =
      (if n.externalContent.getD [] = [] then
        escapeXml (makeSnippet tldr tldrMax)
       else
        escapeXml (makeSnippet tldr tldrMax) ++ str "<br/><br/><a href=\"" ++
          escapeXml (diggLinkOf n) ++ str "\">Discuss on Digg</a>")) ∧
    (tldr = [] → (mkItem parseURL tldr tldrMax n).description =
      (if n.externalContent.getD [] = [] then
        escapeXml (makeSnippet n.title tldrMax)
       else
        escapeXml (makeSnippet n.title tldrMax) ++ str "<br/><br/><a href=\"" ++
          escapeXml (diggLinkOf n) ++ str "\">Discuss on Digg</a>")) := by
  constructor
  · intro h
    show (if (n.externalContent.getD [] : Chars) = [] then
        escapeXml (makeSnippet (if tldr = [] then n.title else tldr) tldrMax)
      else _) = _
    rw [if_neg h]
  · intro h
    subst h
    rfl

/-- Witness for C4 (amended): with an empty TL;DR and no external URL the
description is the escaped title snippet. -/
theorem description_source_amended_witness :
    (mkItem (fun _ => none) [] 220
      ⟨str "science-abc", str "The Title", str "t-slug", str "2024-01-01",
        none, some ⟨str "Science", str "science"⟩⟩).description =
      escapeXml (makeSnippet (str "The Title") 220) := by
  have h := (description_source_amended (fun _ => none) [] 220
    ⟨str "science-abc", str "The Title", str "t-slug", str "2024-01-01",
      none, some ⟨str "Science", str "science"⟩⟩).2 rfl
  rw [h]
  rfl

/-- Counterexample for C3: the main handler's 502 body is
`"Upstream error: " + JSON.stringify(lastErr || {})` with no truncation —
for a 3000-character error dump the body carries all 3016 characters,
whereas the bounded form used by the variant worker (`safeJson` with its
2000-character cap) would stop at 2017. -/
theorem upstream_error_unbounded_cex :
    (upstreamErrorBody (some (List.replicate 3000 'a'))).length = 3016 ∧
    (str "Upstream error: " ++ safeJson (List.replicate 3000 'a') 2000).length = 2017 ∧
    upstreamErrorBody (some (List.replicate 3000 'a')) ≠
      str "Upstream error: " ++ safeJson (List.replicate 3000 'a') 2000 := by
  have hlit : (str "Upstream error: ").length = 16 := rfl
  have hell : (str "…").length = 1 := rfl
  have h1 : (upstreamErrorBody (some (List.replicate 3000 'a'))).length = 3016 := by
    show (str "Upstream error: " ++ List.replicate 3000 'a').length = 3016
    rw [List.length_append, hlit, List.length_replicate]
  have h2 : (str "Upstream error: " ++
      safeJson (List.replicate 3000 'a') 2000).length = 2017 := by
    have hsj : safeJson (List.replicate 3000 'a') 2000 =
        (List.replicate 3000 'a').take 2000 ++ str "…" := by
      rw [safeJson, if_pos]
      rw [List.length_replicate]
      omega
    rw [List.length_append, hlit, hsj, List.length_append, hell,
      List.length_take, List.length_replicate]
    omega
  refine ⟨h1, h2, fun hcontra => ?_⟩
  have := congrArg List.length hcontra
  rw [h1, h2] at this
  omega

/-- Claim C3 (amended): when the retry loop is exhausted with no acceptable
result (`edges` still null), the handler returns status 502, plain-text
body `"Upstream error: "` followed by the JSON dump of the last observed
error payload (`"{}"` when none was recorded); the dump is NOT truncated
in the main worker — only the variant worker bounds it, via `safeJson`,
whose output never exceeds `maxLen + 1` characters. -/
theorem upstream_error_body_amended :
    (∀ (parseURL : Chars → Option URLParts) (tldrOf : PostNode → Chars)
        (tldrMax : Nat) (toUTC : Chars → Chars) (now ft fl : Chars)
        (lastErr : Option Chars),
        handlerRespond parseURL tldrOf tldrMax toUTC now ft fl none lastErr =
          (502, str "Upstream error: " ++ lastErr.getD (str "\x7b\x7d"))) ∧
    (∀ (dump : Chars) (maxLen : Nat), (safeJson dump maxLen).length ≤ maxLen + 1) := by
  refine ⟨fun _ _ _ _ _ _ _ _ => rfl, fun dump maxLen => ?_⟩
  rw [safeJson]
  split
  next h =>
    have hell : (str "…").length = 1 := rfl
    rw [List.length_append, hell, List.length_take]
    omega
  next h =>
    omega

/-- Claim C2: the upstream query engine accepts an attempt as final success
exactly when it is error-free and returns at least `min(limit, 5)` records
(first conjunct: such an attempt is taken and the loop stops after that one
request; second: an error-free attempt below the threshold only updates the
best-so-far and continues; third: an errored attempt is never accepted;
fourth: once a window's variants produced an acceptable result, no later
window is attempted), and on the concrete scenario — window 1 empty for all
four variants, window 2 yielding 8 records on its second variant with
requested limit 10 — the engine returns those 8 records after exactly 6
requests, never touching window 2's remaining variants or window 3. -/
theorem engine_min5_acceptance :
    (∀ (limit : Nat) (e : Option (List Nat)) (l : Option Chars)
        (cand : List Nat) (rest : List (UpResult Nat)),
        min limit 5 ≤ cand.length →
        runVariants limit e l (.good cand :: rest) = (some cand, l, 1, true)) ∧
    (∀ (limit : Nat) (e : Option (List Nat)) (l : Option Chars)
        (cand : List Nat) (rest : List (UpResult Nat)),
        cand.length < min limit 5 →
        runVariants limit e l (.good cand :: rest) =
          ((runVariants limit (bestOf e cand) l rest).1,
           (runVariants limit (bestOf e cand) l rest).2.1,
           (runVariants limit (bestOf e cand) l rest).2.2.1 + 1,
           (runVariants limit (bestOf e cand) l rest).2.2.2)) ∧
    (∀ (limit : Nat) (e : Option (List Nat)) (l : Option Chars) (p : Chars)
        (rest : List (UpResult Nat)),
        runVariants limit e l (.bad p :: rest) =
          ((runVariants limit e (some p) rest).1,
           (runVariants limit e (some p) rest).2.1,
           (runVariants limit e (some p) rest).2.2.1 + 1,
           (runVariants limit e (some p) rest).2.2.2)) ∧
    (∀ (limit : Nat) (e : Option (List Nat)) (l : Option Chars)
        (w : List (UpResult Nat)) (ws : List (List (UpResult Nat)))
        (es : List Nat),
        (runVariants limit e l w).1 = some es → min limit 5 ≤ es.length →
        runWindows limit e l (w :: ws) =
          ((runVariants limit e l w).1, (runVariants limit e l w).2.1,
           (runVariants limit e l w).2.2.1)) ∧
    runWindows 10 none none
      [[UpResult.good [], .good [], .good [], .good []],
       [.good [], .good [1, 2, 3, 4, 5, 6, 7, 8],
        .good [21, 22, 23, 24, 25], .good []],
       [.good [31, 32, 33, 34, 35, 36, 37, 38, 39, 40]]] =
      (some [1, 2, 3, 4, 5, 6, 7, 8], none, 6) := by
  refine ⟨?_, ?_, ?_, ?_, by decide⟩
  · intro limit e l cand rest h
    rw [runVariants, if_pos h]
  · intro limit e l cand rest h
    rw [runVariants, if_neg (Nat.not_le_of_lt h)]
  · intro limit e l p rest
    rw [runVariants]
  · intro limit e l w ws es h1 h2
    rw [runWindows]
    split
    · rfl
    · next hfalse =>
      rw [h1] at hfalse
      exact absurd (decide_eq_true h2) hfalse

/-- Witness for C2: an error-free first attempt with `min(10, 5) = 5`
records is accepted immediately; the pending errored attempt is never
issued. -/
theorem engine_min5_acceptance_witness :
    runVariants 10 none none [UpResult.good [1, 2, 3, 4, 5], .bad (str "later")] =
      (some [1, 2, 3, 4, 5], none, 1, true) :=
  engine_min5_acceptance.1 10 none none [1, 2, 3, 4, 5] [.bad (str "later")]
    (by decide)

/-- Claim C10: when every attempt succeeds at the transport/GraphQL level
but returns an empty edges list, the handler does not 502 — the empty list
is retained as best-so-far (`edges` is `some []`, not null, so the
`if (!edges)` check passes), `lastErr` stays unset, and the handler renders
a 200 RSS document with zero `<item>` elements. -/
theorem empty_edges_render_empty_feed (limit : Nat)
    (grid : List (List (UpResult PostNode)))
    (parseURL : Chars → Option URLParts) (tldrOf : PostNode → Chars)
    (tldrMax : Nat) (toUTC : Chars → Chars)
    (hl : 1 ≤ limit)
    (hg : ∀ w ∈ grid, ∀ r ∈ w, r = UpResult.good [])
    (hne : ∃ w ∈ grid, w ≠ []) :
    (runWindows limit none none grid).1 = some [] ∧
    (runWindows limit none none grid).2.1 = none ∧
    (handlerRespond parseURL tldrOf tldrMax toUTC
        (str "Mon, 01 Jan 2024 00:00:00 GMT") (str "Digg — science (Newest)")
        (str "https://digg.com/science") (runWindows limit none none grid).1
        (runWindows limit none none grid).2.1).1 = 200 ∧
    ¬ (str "<item>" <:+:
        (handlerRespond parseURL tldrOf tldrMax toUTC
          (str "Mon, 01 Jan 2024 00:00:00 GMT") (str "Digg — science (Newest)")
          (str "https://digg.com/science") (runWindows limit none none grid).1
          (runWindows limit none none grid).2.1).2) := by
  have hrw := runWindows_allEmpty limit hl grid hg none (Or.inl rfl) none
  have hall : (grid.all fun v => v.isEmpty) = false := by
    rw [List.all_eq_false]
    obtain ⟨w, hwmem, hwne⟩ := hne
    exact ⟨w, hwmem, by simp [List.isEmpty_iff, hwne]⟩
  have he1 : (runWindows limit none none grid).1 = some [] := by
    rw [hrw, hall]
    rfl
  have he2 : (runWindows limit none none grid).2.1 = none := by
    rw [hrw]
  refine ⟨he1, he2, ?_, ?_⟩
  · rw [he1, he2]
    rfl
  · rw [he1, he2]
    have hb1 : (handlerRespond parseURL tldrOf tldrMax toUTC
        (str "Mon, 01 Jan 2024 00:00:00 GMT") (str "Digg — science (Newest)")
        (str "https://digg.com/science") (some []) none).2 =
        buildRss toUTC (str "Mon, 01 Jan 2024 00:00:00 GMT")
          (str "Digg — science (Newest)") (str "https://digg.com/science")
          (str "Digg — science (Newest)") [] := rfl
    rw [hb1]
    intro hbad
    have hcp := (containsPat_iff (str "<item>") _).mpr hbad
    have hfalse : containsPat (str "<item>")
        (buildRss toUTC (str "Mon, 01 Jan 2024 00:00:00 GMT")
          (str "Digg — science (Newest)") (str "https://digg.com/science")
          (str "Digg — science (Newest)") []) = false := by
      simp only [buildRss, List.map_nil]
      decide
    rw [hfalse] at hcp
    exact Bool.noConfusion hcp

/-- Witness for C10: one window whose single attempt succeeds with an empty
edges list yields a 200 response. -/
theorem empty_edges_render_empty_feed_witness :
    (handlerRespond (fun _ => none) (fun _ => []) 0 (fun s => s)
        (str "Mon, 01 Jan 2024 00:00:00 GMT") (str "Digg — science (Newest)")
        (str "https://digg.com/science")
        (runWindows 1 none none
          ([[UpResult.good []]] : List (List (UpResult PostNode)))).1
        (runWindows 1 none none
          ([[UpResult.good []]] : List (List (UpResult PostNode)))).2.1).1 = 200 :=
  (empty_edges_render_empty_feed 1
    ([[UpResult.good []]] : List (List (UpResult PostNode))) (fun _ => none)
    (fun _ => []) 0 (fun s => s) (by decide)
    (by
      intro w hw r hr
      simp only [List.mem_singleton] at hw
      subst hw
      simp only [List.mem_singleton] at hr
      exact hr)
    ⟨[UpResult.good []], by simp, by simp⟩).2.2.1

/-- Counterexample for C9: the main worker's `buildRss` (src/src/index.js)
emits no `<dc:creator>` element even for an item that carries an author,
and declares no `dc` namespace on the `<rss>` root. -/
theorem main_serializer_no_dc_creator_cex :
    ¬ (str "<dc:creator>" <:+:
        buildRss (fun s => s) (str "Mon, 01 Jan 2024 00:00:00 GMT")
          (str "Digg — science (Newest)") (str "https://digg.com/science")
          (str "Digg — science (Newest)")
          [⟨str "T", str "https://example.com/x",
            str "https://digg.com/science/a/t", str "2024-01-01", str "D",
            none, some (str "alice")⟩]) ∧
    ¬ (str "xmlns:dc" <:+:
        buildRss (fun s => s) (str "Mon, 01 Jan 2024 00:00:00 GMT")
          (str "Digg — science (Newest)") (str "https://digg.com/science")
          (str "Digg — science (Newest)")
          [⟨str "T", str "https://example.com/x",
            str "https://digg.com/science/a/t", str "2024-01-01", str "D",
            none, some (str "alice")⟩]) := by
  constructor
  · intro hbad
    have hcp := (containsPat_iff (str "<dc:creator>") _).mpr hbad
    have hfalse : containsPat (str "<dc:creator>")
        (buildRss (fun s => s) (str "Mon, 01 Jan 2024 00:00:00 GMT")
          (str "Digg — science (Newest)") (str "https://digg.com/science")
          (str "Digg — science (Newest)")
          [⟨str "T", str "https://example.com/x",
            str "https://digg.com/science/a/t", str "2024-01-01", str "D",
            none, some (str "alice")⟩]) = false := by decide
    rw [hfalse] at hcp
    exact Bool.noConfusion hcp
  · intro hbad
    have hcp := (containsPat_iff (str "xmlns:dc") _).mpr hbad
    have hfalse : containsPat (str "xmlns:dc")
        (buildRss (fun s => s) (str "Mon, 01 Jan 2024 00:00:00 GMT")
          (str "Digg — science (Newest)") (str "https://digg.com/science")
          (str "Digg — science (Newest)")
          [⟨str "T", str "https://example.com/x",
            str "https://digg.com/science/a/t", str "2024-01-01", str "D",
            none, some (str "alice")⟩]) = false := by decide
    rw [hfalse] at hcp
    exact Bool.noConfusion hcp

/-- Claim C9 (amended): it is the variant serializer (src/unnamed/part_001)
that, for every feed item carrying a non-empty author, emits a
`<dc:creator>` element for that item and declares the `dc` XML namespace on
the `<rss>` root; the main worker's serializer does neither. -/
theorem alt_serializer_emits_dc_creator (toUTC : Chars → Chars)
    (now t l d : Chars) (items : List FeedItem) (it : FeedItem) (c : Chars)
    (hmem : it ∈ items) (hc : it.creator = some c) (hne : c ≠ []) :
    str "<dc:creator>" <:+: Alt.buildRss toUTC now t l d items ∧
    str "xmlns:dc=\"http://purl.org/dc/elements/1.1/\"" <:+:
      Alt.buildRss toUTC now t l d items := by
  have hshape : str "<dc:creator>" = '<' :: (str "dc:creator" ++ ['>']) := rfl
  constructor
  · have hcre : Alt.creatorXmlOf it =
        str "\n    <dc:creator><![CDATA[" ++ c ++ str "]]></dc:creator>" := by
      simp [Alt.creatorXmlOf, hc, hne]
    have hlit : ('<' :: (str "dc:creator" ++ ['>'])) <:+:
        str "\n    <dc:creator><![CDATA[" := by decide
    have h1 : ('<' :: (str "dc:creator" ++ ['>'])) <:+: Alt.creatorXmlOf it := by
      rw [hcre]
      exact infix_ext_right _ _ (infix_ext_right _ _ hlit)
    have hitem : ('<' :: (str "dc:creator" ++ ['>'])) <:+: Alt.itemXml toUTC it := by
      rw [Alt.itemXml]
      apply infix_strTrim (by decide) (by decide)
      exact infix_ext_right _ _ (infix_ext_right _ _ (infix_ext_left _ _ h1))
    have hmem2 : Alt.itemXml toUTC it ∈ items.map (Alt.itemXml toUTC) :=
      List.mem_map_of_mem _ hmem
    have hjoin := hitem.trans (infix_joinSep (str "\n") hmem2)
    rw [hshape, Alt.buildRss]
    exact infix_ext_right _ _ (infix_ext_left _ _ hjoin)
  · have hA : str "xmlns:dc=\"http://purl.org/dc/elements/1.1/\"" <:+:
        str "<?xml version=\"1.0\" encoding=\"UTF-8\"?>\n<rss version=\"2.0\" xmlns:dc=\"http://purl.org/dc/elements/1.1/\">\n<channel>\n  <title><![CDATA[" := by
      decide
    rw [Alt.buildRss]
    exact infix_ext_right _ _ (infix_ext_right _ _ (infix_ext_right _ _
      (infix_ext_right _ _ (infix_ext_right _ _ (infix_ext_right _ _
        (infix_ext_right _ _ (infix_ext_right _ _ (infix_ext_right _ _
          (infix_ext_right _ _ hA)))))))))

/-- Witness for C9 (amended): a concrete singleton feed with author
`alice`. -/
theorem alt_serializer_emits_dc_creator_witness :
    str "<dc:creator>" <:+:
      Alt.buildRss (fun s => s) (str "Mon, 01 Jan 2024 00:00:00 GMT")
        (str "Digg — science (Newest)") (str "https://digg.com/science")
        (str "Digg — science (Newest)")
        [⟨str "T", str "https://example.com/x",
          str "https://digg.com/science/a/t", str "2024-01-01", str "D",
          none, some (str "alice")⟩] :=
  (alt_serializer_emits_dc_creator (fun s => s)
    (str "Mon, 01 Jan 2024 00:00:00 GMT") (str "Digg — science (Newest)")
    (str "https://digg.com/science") (str "Digg — science (Newest)")
    [⟨str "T", str "https://example.com/x",
      str "https://digg.com/science/a/t", str "2024-01-01", str "D",
      none, some (str "alice")⟩]
    ⟨str "T", str "https://example.com/x",
      str "https://digg.com/science/a/t", str "2024-01-01", str "D",
      none, some (str "alice")⟩
    (str "alice") (by simp) rfl (by decide)).1

